import Mathlib

/-!
# Verification of the dynamic-monitoring core

Shallow embedding of the server-monitor "dynamic monitoring" component:

* `system-info.ts` (`getCpuInfo` aggregation, `getMemInfo`, `getDynamicCpuUsage`):
  double-sampling delta computation of CPU usage, modelled with JavaScript
  floating-point division semantics for the zero-denominator cases
  (`0/0 = NaN`, `x/0 = ±Infinity`).
* `DynamicMonitor` (`start`, `stop`, `updateConfig`, `addDataPoint`,
  `clearHistory`): scheduler lifecycle with `setInterval` timers and the
  bounded history buffer.
* `TrendAnalyzer` (`calculateAverage`, `calculateTrend`, `predictTrend`).
* `AlertManager` (`checkAlerts` over registered `AlertRule`s, with the
  rule `condition` able to throw, modelled by `Except`).

Numbers are modelled as `ℚ` (exact JavaScript arithmetic on the inputs we
consider never overflows nor rounds in a way relevant to these claims);
where the code can produce `NaN`/`Infinity` we use the `JSNum` type.
-/

/-- A JavaScript `number` result that may be non-finite: `NaN`, `Infinity`,
`-Infinity`, or a finite value (modelled exactly as a rational). -/
inductive JSNum where
  | nan : JSNum
  | posInf : JSNum
  | negInf : JSNum
  | fin (q : ℚ) : JSNum
deriving DecidableEq, Repr

namespace JSNum

/-- JavaScript division `a / b` of two finite numbers: `0/0 = NaN`,
`x/0 = ±Infinity` for `x ≠ 0`, ordinary division otherwise. -/
def jsDiv (a b : ℚ) : JSNum :=
  if b = 0 then
    if a = 0 then .nan
    else if 0 < a then .posInf
    else .negInf
  else .fin (a / b)

/-- Multiplication of a possibly non-finite value by a finite constant
(JavaScript semantics; we only ever use a positive constant, 100). -/
def jsMulConst (x : JSNum) (c : ℚ) : JSNum :=
  match x with
  | .nan => .nan
  | .posInf => if 0 < c then .posInf else if c < 0 then .negInf else .nan
  | .negInf => if 0 < c then .negInf else if c < 0 then .posInf else .nan
  | .fin q => .fin (q * c)

end JSNum

/-- Aggregated cumulative CPU tick counters, as returned by the
`reduce` over `os.cpus()` in `getCpuTimes` (fields `user`, `sys`, `idle`). -/
structure CpuTimes where
  user : ℚ
  sys : ℚ
  idle : ℚ
deriving DecidableEq, Repr

/-- The per-core accumulation step of `getCpuTimes`:
`acc.user += cpu.times.user; acc.sys += cpu.times.sys; acc.idle += cpu.times.idle`. -/
def cpuTimesAccum (acc cpu : CpuTimes) : CpuTimes :=
  { user := acc.user + cpu.user, sys := acc.sys + cpu.sys, idle := acc.idle + cpu.idle }

/-- `getCpuTimes` from `getDynamicCpuUsage`: reduce over all cores starting
from `{ user: 0, sys: 0, idle: 0 }`. -/
def getCpuTimes (cores : List CpuTimes) : CpuTimes :=
  cores.foldl cpuTimesAccum ⟨0, 0, 0⟩

/-- The result object of `getDynamicCpuUsage`, before `toFixed(2) + '%'`
string formatting: the numeric values of the `sys`/`used`/`free` fields.
(`toFixed` turns `NaN` into the string `"NaN"`, so a `NaN` here is the
string `"NaN%"` in the code's output.) -/
structure CpuUsageResult where
  sys : JSNum
  used : JSNum
  free : JSNum
deriving DecidableEq, Repr

/-- The delta computation of `getDynamicCpuUsage` between the two snapshots
`start` and `end`:
`delta = end − start` componentwise, `total = Δuser + Δsys + Δidle`,
each field `= (Δfield / total) × 100`, with no zero-total guard and no
clamping — exactly as written in `system-info.ts`. -/
def getDynamicCpuUsage (s e : CpuTimes) : CpuUsageResult :=
  let du := e.user - s.user
  let ds := e.sys - s.sys
  let di := e.idle - s.idle
  let total := du + ds + di
  { sys := (JSNum.jsDiv ds total).jsMulConst 100
    used := (JSNum.jsDiv du total).jsMulConst 100
    free := (JSNum.jsDiv di total).jsMulConst 100 }

/-- The numeric value of the `usage` field of `getMemInfo`:
`((totalMemory − freeMemory) / totalMemory) × 100`, again with no
zero-total guard. -/
def getMemInfoUsage (totalMemory freeMemory : ℚ) : JSNum :=
  (JSNum.jsDiv (totalMemory - freeMemory) totalMemory).jsMulConst 100

namespace TrendAnalyzer

/-- Direction returned by `TrendAnalyzer.calculateTrend`. -/
inductive Direction where
  | up : Direction
  | down : Direction
  | stable : Direction
deriving DecidableEq, Repr

/-- `TrendAnalyzer.calculateAverage`: `0` for an empty array, otherwise
`reduce`-sum divided by length. -/
def calculateAverage (values : List ℚ) : ℚ :=
  if values.length = 0 then 0
  else (values.foldl (· + ·) 0) / values.length

/-- `TrendAnalyzer.calculateTrend`:
fewer than 2 values ⇒ `stable`; otherwise split at `floor(length / 2)`
(`firstHalf = slice(0, ⌊n/2⌋)`, `secondHalf = slice(⌊n/2⌋)` — for odd `n`
the middle element lands in the *second* half), compare the two averages
against the threshold `firstAvg * 0.05`. -/
def calculateTrend (values : List ℚ) : Direction :=
  if values.length < 2 then .stable
  else
    let firstHalf := values.take (values.length / 2)
    let secondHalf := values.drop (values.length / 2)
    let firstAvg := calculateAverage firstHalf
    let secondAvg := calculateAverage secondHalf
    let difference := secondAvg - firstAvg
    let threshold := firstAvg * (5 / 100)
    if |difference| < threshold then .stable
    else if 0 < difference then .up
    else .down

/-- The index array `x = Array.from({length: n}, (_, i) => i)` of
`predictTrend`. -/
def regX (values : List ℚ) : List ℚ :=
  (List.range values.length).map (fun i : ℕ => (i : ℚ))

/-- `sumX = x.reduce((a, b) => a + b, 0)` of `predictTrend`. -/
def regSumX (values : List ℚ) : ℚ :=
  (regX values).foldl (· + ·) 0

/-- `sumY = y.reduce((a, b) => a + b, 0)` of `predictTrend`. -/
def regSumY (values : List ℚ) : ℚ :=
  values.foldl (· + ·) 0

/-- `sumXY = x.reduce((sum, xi, i) => sum + xi * y[i], 0)` of
`predictTrend` (since `x[i] = i`, pairing `x` with `y` positionally). -/
def regSumXY (values : List ℚ) : ℚ :=
  ((regX values).zip values).foldl (fun s p => s + p.1 * p.2) 0

/-- `sumXX = x.reduce((sum, xi) => sum + xi * xi, 0)` of `predictTrend`. -/
def regSumXX (values : List ℚ) : ℚ :=
  (regX values).foldl (fun s xi => s + xi * xi) 0

/-- `slope = (n * sumXY - sumX * sumY) / (n * sumXX - sumX * sumX)`. -/
def regSlope (values : List ℚ) : ℚ :=
  ((values.length : ℚ) * regSumXY values - regSumX values * regSumY values) /
    ((values.length : ℚ) * regSumXX values - regSumX values * regSumX values)

/-- `intercept = (sumY - slope * sumX) / n`. -/
def regIntercept (values : List ℚ) : ℚ :=
  (regSumY values - regSlope values * regSumX values) / (values.length : ℚ)

/-- `TrendAnalyzer.predictTrend`: fewer than 3 values ⇒ `[]`; otherwise the
simple linear regression `slope = (n·Σxy − Σx·Σy)/(n·Σx² − (Σx)²)`,
`intercept = (Σy − slope·Σx)/n` over `x = 0..n−1` (the local consts of the
function are modelled by the `reg…` helpers above), and for
`i = 1..periods` the prediction `slope·(n + i − 1) + intercept` clamped by
`Math.max(0, Math.min(100, ·))`. -/
def predictTrend (values : List ℚ) (periods : ℕ) : List ℚ :=
  if values.length < 3 then []
  else
    (List.range periods).map (fun j =>
      max 0 (min 100 (regSlope values * ((values.length : ℚ) + (j + 1 : ℕ) - 1) +
        regIntercept values)))

end TrendAnalyzer

/-- The trend function as §4.4 of the spec words it: split the window into
first and second half *excluding the middle element of an odd-length
window from both*, `stable` when `|secondMean − firstMean| < 0.05×firstMean`,
with an absolute threshold of `1.0` when `firstMean = 0`. Means are
`sum / length` (`0` for an empty half). Stated only to compare against
`TrendAnalyzer.calculateTrend`. -/
def specTrend (values : List ℚ) : TrendAnalyzer.Direction :=
  if values.length < 2 then .stable
  else
    let firstHalf := values.take (values.length / 2)
    let secondHalf := values.drop ((values.length + 1) / 2)
    let firstMean := TrendAnalyzer.calculateAverage firstHalf
    let secondMean := TrendAnalyzer.calculateAverage secondHalf
    let difference := secondMean - firstMean
    let threshold := if firstMean = 0 then 1 else firstMean * (5 / 100)
    if |difference| < threshold then .stable
    else if 0 < difference then .up
    else .down

/-- The `thresholds` sub-object of `MonitoringConfig`. -/
structure Thresholds where
  cpu : ℚ
  memory : ℚ
  disk : ℚ
deriving DecidableEq, Repr

/-- `MonitoringConfig` from the dynamic-monitoring chapter. JavaScript
numbers are modelled as `ℚ`; nothing in the class constrains them. -/
structure MonitoringConfig where
  interval : ℚ
  historySize : ℚ
  enableAlerts : Bool
  thresholds : Thresholds
deriving DecidableEq, Repr

/-- `Partial<MonitoringConfig>`: every top-level field optional (TypeScript's
`Partial` is shallow, so `thresholds` is present-or-absent as a whole). -/
structure PartialMonitoringConfig where
  interval : Option ℚ := none
  historySize : Option ℚ := none
  enableAlerts : Option Bool := none
  thresholds : Option Thresholds := none
deriving DecidableEq, Repr

/-- The object-spread merge `{ ...base, ...patch }` on configs: a field
present in the patch wins, otherwise the base value is kept. -/
def mergeConfig (base : MonitoringConfig) (patch : PartialMonitoringConfig) : MonitoringConfig :=
  { interval := patch.interval.getD base.interval
    historySize := patch.historySize.getD base.historySize
    enableAlerts := patch.enableAlerts.getD base.enableAlerts
    thresholds := patch.thresholds.getD base.thresholds }

/-- The defaults set in the `DynamicMonitor` constructor. -/
def defaultMonitoringConfig : MonitoringConfig :=
  { interval := 5000
    historySize := 1000
    enableAlerts := true
    thresholds := { cpu := 80, memory := 85, disk := 90 } }

/-- One `disk` entry of a `MonitoringDataPoint`. -/
structure DiskPoint where
  mounted : String
  total : ℚ
  used : ℚ
  usage : ℚ
deriving DecidableEq, Repr

/-- `MonitoringDataPoint` from the dynamic-monitoring chapter (the fields
the alert rules and history operate on). -/
structure MonitoringDataPoint where
  timestamp : ℚ
  cpuUsage : ℚ
  cpuCores : ℕ
  memoryUsage : ℚ
  disk : List DiskPoint
deriving DecidableEq, Repr

instance : Inhabited MonitoringDataPoint :=
  ⟨{ timestamp := 0, cpuUsage := 0, cpuCores := 0, memoryUsage := 0, disk := [] }⟩

namespace DynamicMonitor

/-- `DynamicMonitor.addDataPoint`: `this.history.push(dataPoint)` followed by
`if (this.history.length > this.config.historySize) this.history.shift()`.
`shift` removes the front (oldest) element. -/
def addDataPoint (historySize : ℚ) (history : List MonitoringDataPoint)
    (dataPoint : MonitoringDataPoint) : List MonitoringDataPoint :=
  let pushed := history ++ [dataPoint]
  if historySize < (pushed.length : ℚ) then pushed.drop 1 else pushed

/-- The `DynamicMonitor` fields relevant to the lifecycle claims.
`activeTimers` records the ids of `setInterval` timers that have been
created and not yet cleared (the runtime's live-timer set); `nextTimerId`
is the runtime's fresh-id counter. `collectData` is fire-and-forget
asynchronous, so its history push is modelled as the separate `tick`
operation rather than as part of `start`. -/
structure State where
  isRunning : Bool
  intervalId : Option ℕ
  nextTimerId : ℕ
  activeTimers : List ℕ
  config : MonitoringConfig
  history : List MonitoringDataPoint
deriving DecidableEq, Repr

/-- The state produced by the `DynamicMonitor` constructor: not running, no
timer, defaults merged with the caller's partial config. -/
def initState (cfg : PartialMonitoringConfig) : State :=
  { isRunning := false
    intervalId := none
    nextTimerId := 0
    activeTimers := []
    config := mergeConfig defaultMonitoringConfig cfg
    history := [] }

/-- `DynamicMonitor.start`: early-return if already running; otherwise set
`isRunning`, fire the immediate (asynchronous) collection, and register one
`setInterval` timer, storing its id in `intervalId`. -/
def start (s : State) : State :=
  if s.isRunning then s
  else
    { s with
      isRunning := true
      intervalId := some s.nextTimerId
      activeTimers := s.activeTimers ++ [s.nextTimerId]
      nextTimerId := s.nextTimerId + 1 }

/-- `DynamicMonitor.stop`: early-return if not running; otherwise clear
`isRunning` and, when an `intervalId` is held, `clearInterval` it and null
the field. -/
def stop (s : State) : State :=
  if !s.isRunning then s
  else
    match s.intervalId with
    | some id =>
      { s with isRunning := false, intervalId := none, activeTimers := s.activeTimers.erase id }
    | none => { s with isRunning := false }

/-- `DynamicMonitor.updateConfig`: remember `wasRunning`, stop if running,
spread-merge the new partial config over the old one, restart if it was
running. No validation of any kind is performed. -/
def updateConfig (s : State) (newConfig : PartialMonitoringConfig) : State :=
  let wasRunning := s.isRunning
  let s1 := if wasRunning then stop s else s
  let s2 := { s1 with config := mergeConfig s1.config newConfig }
  if wasRunning then start s2 else s2

/-- `DynamicMonitor.clearHistory`. -/
def clearHistory (s : State) : State :=
  { s with history := [] }

/-- One completed asynchronous `collectData` pass: push the sampled point
into the history (alert emission does not change these fields). -/
def tick (s : State) (dp : MonitoringDataPoint) : State :=
  { s with history := addDataPoint s.config.historySize s.history dp }

/-- The externally triggerable operations on a `DynamicMonitor`. -/
inductive Op where
  | opStart : Op
  | opStop : Op
  | opUpdateConfig (cfg : PartialMonitoringConfig) : Op
  | opClearHistory : Op
  | opTick (dp : MonitoringDataPoint) : Op

/-- Apply one operation. -/
def step (s : State) : Op → State
  | .opStart => start s
  | .opStop => stop s
  | .opUpdateConfig cfg => updateConfig s cfg
  | .opClearHistory => clearHistory s
  | .opTick dp => tick s dp

/-- Run a sequence of operations from a freshly constructed monitor. -/
def run (cfg : PartialMonitoringConfig) (ops : List Op) : State :=
  ops.foldl step (initState cfg)

end DynamicMonitor

/-- `AlertLevel` enum. -/
inductive AlertLevel where
  | info : AlertLevel
  | warning : AlertLevel
  | error : AlertLevel
  | critical : AlertLevel
deriving DecidableEq, Repr

/-- The `Alert` record kept in `AlertManager.alerts` (keyed by rule id). -/
structure Alert where
  id : String
  level : AlertLevel
  message : String
  timestamp : ℕ
  resolved : Bool
  resolvedAt : Option ℕ
  data : Option MonitoringDataPoint
deriving DecidableEq, Repr

/-- An `AlertRule`. `condition` is an arbitrary JavaScript function and may
throw, which we model with `Except`: `Except.error e` is a thrown
exception, `Except.ok b` a normal boolean return. -/
structure AlertRule where
  id : String
  level : AlertLevel
  condition : MonitoringDataPoint → Except String Bool
  message : MonitoringDataPoint → String

/-- The two events `AlertManager` emits from `checkAlerts`: `'alert'`
(raise) and `'alertResolved'`, each carrying the alert record. -/
inductive AlertEvent where
  | raised (a : Alert) : AlertEvent
  | resolvedE (a : Alert) : AlertEvent
deriving DecidableEq, Repr

/-- The rule id an event is about. -/
def AlertEvent.ruleId : AlertEvent → String
  | .raised a => a.id
  | .resolvedE a => a.id

/-- `Map<string, Alert>` as an insertion-ordered association list. -/
abbrev AlertMap := List (String × Alert)

/-- `Map.get` (first — and only — binding of a key). -/
def AlertMap.find (m : AlertMap) (k : String) : Option Alert :=
  (m.find? (fun p => p.1 = k)).map (·.2)

/-- `Map.set`: overwrite the binding of `k` in place if present, otherwise
append a new binding at the end (JavaScript `Map` insertion order). -/
def AlertMap.set (m : AlertMap) (k : String) (a : Alert) : AlertMap :=
  match m with
  | [] => [(k, a)]
  | (k0, a0) :: rest =>
    if k0 = k then (k0, a) :: rest else (k0, a0) :: AlertMap.set rest k a

namespace AlertManager

/-- The outcome of one `checkAlerts` call: the updated alert map, the events
emitted (in emission order) before any exception, and the exception thrown
by a rule condition, if any. A throw aborts the `forEach`, so mutations and
emissions made for earlier rules persist while later rules are skipped. -/
structure CheckResult where
  alerts : AlertMap
  events : List AlertEvent
  thrown : Option String

/-- The body of `AlertManager.checkAlerts`, iterating `this.rules.forEach`:
for each rule evaluate `shouldAlert = rule.condition(dataPoint)`; when true
and (`!alerts.has(id) || alerts.get(id).resolved`) build a fresh unresolved
alert, store it and emit `'alert'`; when false and an unresolved alert
exists, mark it resolved (with `resolvedAt = now`) and emit
`'alertResolved'`. `now` stands for `Date.now()`. -/
def checkAlertsGo (now : ℕ) (dataPoint : MonitoringDataPoint) :
    List AlertRule → AlertMap → CheckResult
  | [], m => ⟨m, [], none⟩
  | rule :: rest, m =>
    match rule.condition dataPoint with
    | .error e => ⟨m, [], some e⟩
    | .ok true =>
      let isNewFiring :=
        match AlertMap.find m rule.id with
        | none => true
        | some a => a.resolved
      if isNewFiring then
        let alert : Alert :=
          { id := rule.id, level := rule.level, message := rule.message dataPoint
            timestamp := now, resolved := false, resolvedAt := none
            data := some dataPoint }
        let res := checkAlertsGo now dataPoint rest (AlertMap.set m rule.id alert)
        ⟨res.alerts, .raised alert :: res.events, res.thrown⟩
      else checkAlertsGo now dataPoint rest m
    | .ok false =>
      match AlertMap.find m rule.id with
      | some existing =>
        if existing.resolved then checkAlertsGo now dataPoint rest m
        else
          let resolvedAlert := { existing with resolved := true, resolvedAt := some now }
          let res := checkAlertsGo now dataPoint rest (AlertMap.set m rule.id resolvedAlert)
          ⟨res.alerts, .resolvedE resolvedAlert :: res.events, res.thrown⟩
      | none => checkAlertsGo now dataPoint rest m

/-- An `AlertManager` instance: its registered rules and its alert map. -/
structure State where
  rules : List AlertRule
  alerts : AlertMap

/-- A fresh `AlertManager`. -/
def initState : State := ⟨[], []⟩

/-- `AlertManager.addRule`: `this.rules.push(rule)`. -/
def addRule (s : State) (rule : AlertRule) : State :=
  { s with rules := s.rules ++ [rule] }

/-- `AlertManager.checkAlerts` on a manager state. -/
def checkAlerts (s : State) (now : ℕ) (dataPoint : MonitoringDataPoint) :
    State × List AlertEvent × Option String :=
  let res := checkAlertsGo now dataPoint s.rules s.alerts
  ({ s with alerts := res.alerts }, res.events, res.thrown)

/-- `AlertManager.getActiveAlerts`: the unresolved alert records. -/
def getActiveAlerts (s : State) : List Alert :=
  (s.alerts.map (·.2)).filter (fun a => !a.resolved)

/-- The alert map after feeding `checkAlerts` the first `i` points of `ps`
(tick `j` is given `now = j`), starting from an empty map. -/
def alertsAfter (rules : List AlertRule) (ps : List MonitoringDataPoint) : ℕ → AlertMap
  | 0 => []
  | i + 1 => (checkAlertsGo i (ps.getD i default) rules (alertsAfter rules ps i)).alerts

/-- The events `checkAlerts` emits on tick `i` of the run of `ps`. -/
def tickEvents (rules : List AlertRule) (ps : List MonitoringDataPoint) (i : ℕ) :
    List AlertEvent :=
  (checkAlertsGo i (ps.getD i default) rules (alertsAfter rules ps i)).events

end AlertManager

/-- `calculateTrend` restated arithmetically (the amended form of the spec's
§4.4 trend description): split at `k = ⌊n/2⌋` with the middle element of an
odd-length window in the *second* half, means written as `sum / length`,
threshold `m1/20 = 0.05·m1` (so for `m1 = 0` the threshold is `0` and the
result is never `stable`). -/
def amendedTrend (values : List ℚ) : TrendAnalyzer.Direction :=
  if values.length < 2 then .stable
  else
    let k := values.length / 2
    let m1 := (values.take k).sum / (k : ℚ)
    let m2 := (values.drop k).sum / ((values.length - k : ℕ) : ℚ)
    if |m2 - m1| < m1 / 20 then .stable
    else if m1 < m2 then .up
    else .down

/-- Is this event an `'alert'` (raise) emission for rule id `k`? -/
def AlertEvent.isRaisedFor (k : String) : AlertEvent → Bool
  | .raised a => a.id == k
  | .resolvedE _ => false

/-- Is this event an `'alertResolved'` emission for rule id `k`? -/
def AlertEvent.isResolvedFor (k : String) : AlertEvent → Bool
  | .raised _ => false
  | .resolvedE a => a.id == k

/-- Number of raise emissions for rule id `k` in an event list. -/
def countRaised (k : String) (evs : List AlertEvent) : ℕ :=
  (evs.filter (AlertEvent.isRaisedFor k)).length

/-- Number of resolve emissions for rule id `k` in an event list. -/
def countResolved (k : String) (evs : List AlertEvent) : ℕ :=
  (evs.filter (AlertEvent.isResolvedFor k)).length

/-- Does the alert map hold a currently-unresolved (FIRING) alert for `k`? -/
def firingIn (m : AlertMap) (k : String) : Bool :=
  match AlertMap.find m k with
  | some a => !a.resolved
  | none => false

/-- Well-formedness of the alert map: every record is stored under its own
rule id (always true of maps built by `checkAlerts`, which only ever does
`alerts.set(alertId, alert)` with `alert.id = alertId`). -/
def AlertMap.WFKeys (m : AlertMap) : Prop :=
  ∀ p ∈ m, (p : String × Alert).2.id = p.1

/-- The timer part of the scheduler invariant: while running there is
exactly one live `setInterval` timer and `intervalId` holds its id; while
stopped there is none. -/
def DynamicMonitor.TimerInv (s : DynamicMonitor.State) : Prop :=
  if s.isRunning then ∃ id, s.intervalId = some id ∧ s.activeTimers = [id]
  else s.intervalId = none ∧ s.activeTimers = []

/-- A simple concrete data point (used to instantiate theorems): all
metrics zero except the given CPU usage. -/
def cpuPoint (t : ℚ) (cpu : ℚ) : MonitoringDataPoint :=
  { timestamp := t, cpuUsage := cpu, cpuCores := 4, memoryUsage := 0, disk := [] }

/-- A rule whose condition throws on hot data points (`cpuUsage ≥ 100`)
and returns `true` otherwise. -/
def throwingRule : AlertRule :=
  { id := "high-cpu"
    level := .warning
    condition := fun dp => if dp.cpuUsage < 100 then .ok true else .error "boom"
    message := fun _ => "cpu high" }

/-- The first of `defaultAlertRules`: fire when `data.cpu.usage > 80`
(condition never throws). -/
def highCpuRule : AlertRule :=
  { id := "high-cpu"
    level := .warning
    condition := fun dp => .ok (decide (80 < dp.cpuUsage))
    message := fun _ => "cpu high" }

/-- The synthetic CPU series of the spec's §8 scenario:
`[70, 75, 85, 90, 78, 60]` against a threshold of 80. -/
def scenarioPoints : List MonitoringDataPoint :=
  [cpuPoint 0 70, cpuPoint 1 75, cpuPoint 2 85, cpuPoint 3 90, cpuPoint 4 78, cpuPoint 5 60]

/-! ## Theorems -/

/-- C3 (code bug): on a zero-total delta window `getDynamicCpuUsage` does
*not* report 0% — identical snapshots give `NaN` (the string `"NaN%"` after
`toFixed`), a zero-total window with a positive user delta gives
`Infinity`, and `getMemInfo` with `totalMemory = 0` likewise gives `NaN`;
none of these equal the finite value 0 the claim requires. -/
theorem zeroTotal_usage_is_nan :
    (getDynamicCpuUsage ⟨100, 50, 850⟩ ⟨100, 50, 850⟩).used = JSNum.nan ∧
    (getDynamicCpuUsage ⟨100, 50, 850⟩ ⟨105, 50, 845⟩).used = JSNum.posInf ∧
    getMemInfoUsage 0 0 = JSNum.nan ∧
    JSNum.nan ≠ JSNum.fin 0 ∧ JSNum.posInf ≠ JSNum.fin 0 := by
  refine ⟨?_, ?_, ?_, by simp, by simp⟩ <;>
    norm_num [getDynamicCpuUsage, getMemInfoUsage, JSNum.jsDiv, JSNum.jsMulConst]

/-- C4 (code bug): `getDynamicCpuUsage` performs no clamping: a negative
user delta (counter wraparound) yields −100, and a negative idle delta
yields 200 — both outside `[0,100]`. -/
theorem wraparound_usage_not_clamped :
    (getDynamicCpuUsage ⟨10, 0, 0⟩ ⟨5, 0, 10⟩).used = JSNum.fin (-100) ∧
    ((-100 : ℚ) < 0) ∧
    (getDynamicCpuUsage ⟨0, 0, 10⟩ ⟨10, 0, 5⟩).used = JSNum.fin 200 ∧
    ((100 : ℚ) < 200) := by
  refine ⟨?_, by norm_num, ?_, by norm_num⟩ <;>
    norm_num [getDynamicCpuUsage, JSNum.jsDiv, JSNum.jsMulConst]

/-- C9 (code bug): `updateConfig` performs no validation: an update with a
negative interval is merged into the active configuration (which afterwards
carries `interval = −5`) and no error is signalled — the function is total
and always returns the mutated monitor. -/
theorem updateConfig_accepts_negative_interval :
    (DynamicMonitor.updateConfig (DynamicMonitor.initState {}) { interval := some (-5) }).config =
      { defaultMonitoringConfig with interval := -5 } := by
  norm_num [DynamicMonitor.updateConfig, DynamicMonitor.initState, DynamicMonitor.stop,
    DynamicMonitor.start, mergeConfig, defaultMonitoringConfig]

/-- C10: a window with fewer than 2 values makes `calculateTrend` return
`stable` (the cold-start guard `values.length < 2`). -/
theorem calculateTrend_short_window_stable (values : List ℚ)
    (h : values.length < 2) : TrendAnalyzer.calculateTrend values = .stable := by
  simp [TrendAnalyzer.calculateTrend, h]

/-- Witness for C10 at the empty window. -/
theorem calculateTrend_short_window_stable_witness :
    ([] : List ℚ).length < 2 ∧ TrendAnalyzer.calculateTrend [] = .stable :=
  ⟨by norm_num, calculateTrend_short_window_stable [] (by norm_num)⟩

/-- C6 counterexample: the claim's description of `trend` (middle element of
an odd window excluded from both halves; absolute threshold when the first
mean is 0) disagrees with `calculateTrend`: on `[0,100,0]` the code answers
`up` while the described function answers `stable`, and on `[0,0]` the code
answers `down` while the described function answers `stable`. -/
theorem calculateTrend_differs_from_specTrend :
    TrendAnalyzer.calculateTrend [0, 100, 0] = .up ∧ specTrend [0, 100, 0] = .stable ∧
    TrendAnalyzer.calculateTrend [0, 0] = .down ∧ specTrend [0, 0] = .stable := by
  refine ⟨?_, ?_, ?_, ?_⟩ <;>
    norm_num [TrendAnalyzer.calculateTrend, TrendAnalyzer.calculateAverage, specTrend,
      List.take, List.drop, List.foldl]

/-- C5 (code bug): `AlertManager.checkAlerts` has no try/catch around
`rule.condition`. With `throwingRule` registered, a first benign tick
raises the alert; on the next tick the condition throws, the exception
propagates out of `checkAlerts` (`thrown = some "boom"`), no event is
emitted, and the alert is *not* resolved — the predicate is not treated as
false. -/
theorem checkAlerts_condition_throw_propagates :
    (let st0 := AlertManager.addRule AlertManager.initState throwingRule
     let r1 := AlertManager.checkAlerts st0 0 (cpuPoint 0 50)
     let r2 := AlertManager.checkAlerts r1.1 1 (cpuPoint 1 150)
     r1.2.2 = none ∧ countRaised "high-cpu" r1.2.1 = 1 ∧
     r2.2.2 = some "boom" ∧ r2.2.1 = [] ∧ firingIn r2.1.alerts "high-cpu" = true) := by
  norm_num [AlertManager.addRule, AlertManager.initState, AlertManager.checkAlerts,
    AlertManager.checkAlertsGo, AlertMap.find, AlertMap.set, throwingRule, cpuPoint,
    firingIn, countRaised, AlertEvent.isRaisedFor]

/-- `Array.reduce((a,b) => a+b, c)` is `c` plus the list sum. -/
theorem foldl_add_eq_add_sum (l : List ℚ) (c : ℚ) : l.foldl (· + ·) c = c + l.sum := by
  induction l generalizing c with
  | nil => simp
  | cons a t ih => simp only [List.foldl_cons, List.sum_cons, ih]; ring

/-- `calculateAverage` in closed form. -/
theorem calculateAverage_eq (l : List ℚ) :
    TrendAnalyzer.calculateAverage l = if l.length = 0 then 0 else l.sum / l.length := by
  simp [TrendAnalyzer.calculateAverage, foldl_add_eq_add_sum]

/-- C6 (amended): `calculateTrend` splits at `⌊n/2⌋` with the middle element
of an odd-length window in the *second* half and uses the relative
threshold `0.05·m1` unconditionally (no absolute-threshold special case at
`m1 = 0`, where the window is consequently never `stable`); the three
example evaluations of the claim do hold. -/
theorem calculateTrend_amended :
    (∀ values : List ℚ, TrendAnalyzer.calculateTrend values = amendedTrend values) ∧
    TrendAnalyzer.calculateTrend [50, 50, 50, 50] = .stable ∧
    TrendAnalyzer.calculateTrend [10, 10, 90, 90] = .up ∧
    TrendAnalyzer.calculateTrend [90, 90, 10, 10] = .down := by
  refine ⟨fun values => ?_, ?_, ?_, ?_⟩
  · by_cases h : values.length < 2
    · simp [TrendAnalyzer.calculateTrend, amendedTrend, h]
    · have h2 : 2 ≤ values.length := Nat.le_of_not_lt h
      have hk1 : values.length / 2 ≠ 0 := by omega
      have hkn : values.length / 2 < values.length := by omega
      have htake : (values.take (values.length / 2)).length = values.length / 2 := by
        rw [List.length_take]; omega
      have hdrop : (values.drop (values.length / 2)).length =
          values.length - values.length / 2 := List.length_drop _ _
      simp only [TrendAnalyzer.calculateTrend, amendedTrend, h, if_false,
        calculateAverage_eq, htake, hdrop, hk1, if_neg]
      have hd0 : values.length - values.length / 2 ≠ 0 := by omega
      rw [if_neg hd0]
      have hthr : (values.take (values.length / 2)).sum / (values.length / 2 : ℕ) * (5 / 100) =
          (values.take (values.length / 2)).sum / (values.length / 2 : ℕ) / 20 := by ring
      rw [hthr]
      simp only [sub_pos]
  · norm_num [TrendAnalyzer.calculateTrend, TrendAnalyzer.calculateAverage,
      List.take, List.drop, List.foldl]
  · norm_num [TrendAnalyzer.calculateTrend, TrendAnalyzer.calculateAverage,
      List.take, List.drop, List.foldl]
  · norm_num [TrendAnalyzer.calculateTrend, TrendAnalyzer.calculateAverage,
      List.take, List.drop, List.foldl]

/-- Folding `addDataPoint` over any push sequence from a state within
capacity keeps only the suffix that fits: with capacity `N > 0` and
`h.length ≤ N`, the result is `(h ++ ps).drop (h.length + ps.length − N)`. -/
theorem foldl_addDataPoint (N : ℕ) (hN : 0 < N) (ps : List MonitoringDataPoint) :
    ∀ h : List MonitoringDataPoint, h.length ≤ N →
      ps.foldl (DynamicMonitor.addDataPoint (N : ℚ)) h =
        (h ++ ps).drop (h.length + ps.length - N) := by
  induction ps with
  | nil =>
    intro h hh
    simp [Nat.sub_eq_zero_of_le hh]
  | cons p ps ih =>
    intro h hh
    rw [List.foldl_cons]
    have hstep : DynamicMonitor.addDataPoint (N : ℚ) h p =
        if N < h.length + 1 then (h ++ [p]).drop 1 else h ++ [p] := by
      unfold DynamicMonitor.addDataPoint
      have hiff : ((N : ℚ) < ((h ++ [p]).length : ℕ)) ↔ N < h.length + 1 := by
        rw [List.length_append, List.length_singleton]
        exact_mod_cast Iff.rfl
      simp only [hiff]
    by_cases hcase : N < h.length + 1
    · have hlen : h.length = N := by omega
      rw [hstep, if_pos hcase]
      have hlen' : ((h ++ [p]).drop 1).length ≤ N := by
        simp only [List.length_drop, List.length_append, List.length_singleton]
        omega
      rw [ih _ hlen']
      have e1 : ((h ++ [p]).drop 1) ++ ps = ((h ++ [p]) ++ ps).drop 1 :=
        (List.drop_append_of_le_length (by
          simp only [List.length_append, List.length_singleton]; omega)).symm
      rw [e1, List.drop_drop]
      have e2 : (h ++ [p]) ++ ps = h ++ p :: ps := by simp
      rw [e2]
      congr 1
      simp only [List.length_drop, List.length_append, List.length_singleton,
        List.length_cons, List.length_nil]
      omega
    · rw [hstep, if_neg hcase]
      have hlen' : (h ++ [p]).length ≤ N := by
        simp only [List.length_append, List.length_singleton]; omega
      rw [ih _ hlen']
      have e2 : (h ++ [p]) ++ ps = h ++ p :: ps := by simp
      rw [e2]
      congr 1
      simp only [List.length_append, List.length_singleton, List.length_cons,
        List.length_nil]
      omega

/-- C2: with capacity `N > 0`, pushing `N + k` points through `addDataPoint`
starting from an empty history leaves exactly the last `N` pushes, in
insertion order (`ps.drop k`), of length exactly `N`; and after *any* push
sequence the length never exceeds `N` (oldest-first eviction is the `drop`
from the front). -/
theorem historyBuffer_bounded_fifo (N k : ℕ) (hN : 0 < N)
    (ps : List MonitoringDataPoint) (hlen : ps.length = N + k) :
    ps.foldl (DynamicMonitor.addDataPoint (N : ℚ)) [] = ps.drop k ∧
    (ps.foldl (DynamicMonitor.addDataPoint (N : ℚ)) []).length = N ∧
    ∀ qs : List MonitoringDataPoint,
      (qs.foldl (DynamicMonitor.addDataPoint (N : ℚ)) []).length ≤ N := by
  have main := foldl_addDataPoint N hN ps [] (by simp)
  simp only [List.nil_append, List.length_nil, Nat.zero_add] at main
  have hk : ps.length - N = k := by omega
  refine ⟨by rw [main, hk], ?_, ?_⟩
  · rw [main, hk, List.length_drop]; omega
  · intro qs
    have h2 := foldl_addDataPoint N hN qs [] (by simp)
    simp only [List.nil_append, List.length_nil, Nat.zero_add] at h2
    rw [h2, List.length_drop]
    omega

/-- Witness for C2: capacity 2, three pushes keep the last two. -/
theorem historyBuffer_bounded_fifo_witness :
    (0 < 2 ∧ ([cpuPoint 0 10, cpuPoint 1 20, cpuPoint 2 30] :
        List MonitoringDataPoint).length = 2 + 1) ∧
    [cpuPoint 0 10, cpuPoint 1 20, cpuPoint 2 30].foldl
        (DynamicMonitor.addDataPoint ((2 : ℕ) : ℚ)) [] = [cpuPoint 1 20, cpuPoint 2 30] :=
  ⟨⟨by norm_num, by simp⟩,
    by
      have h := (historyBuffer_bounded_fifo 2 1 (by norm_num)
        [cpuPoint 0 10, cpuPoint 1 20, cpuPoint 2 30] (by simp)).1
      simpa using h⟩

/-- The constructor establishes the timer invariant. -/
theorem timerInv_initState (cfg : PartialMonitoringConfig) :
    DynamicMonitor.TimerInv (DynamicMonitor.initState cfg) := by
  simp [DynamicMonitor.TimerInv, DynamicMonitor.initState]

/-- `start` preserves the timer invariant. -/
theorem timerInv_start {s : DynamicMonitor.State} (h : DynamicMonitor.TimerInv s) :
    DynamicMonitor.TimerInv (DynamicMonitor.start s) := by
  by_cases hr : s.isRunning
  · simpa [DynamicMonitor.start, hr] using h
  · simp only [DynamicMonitor.TimerInv, hr, if_false] at h
    simp [DynamicMonitor.start, DynamicMonitor.TimerInv, hr, h.2]

/-- `stop` preserves the timer invariant. -/
theorem timerInv_stop {s : DynamicMonitor.State} (h : DynamicMonitor.TimerInv s) :
    DynamicMonitor.TimerInv (DynamicMonitor.stop s) := by
  by_cases hr : s.isRunning
  · simp only [DynamicMonitor.TimerInv, hr, if_true] at h
    obtain ⟨id, hid, hts⟩ := h
    simp [DynamicMonitor.stop, hr, hid, DynamicMonitor.TimerInv, hts]
  · simpa [DynamicMonitor.stop, hr] using h

/-- `updateConfig` preserves the timer invariant. -/
theorem timerInv_updateConfig {s : DynamicMonitor.State}
    (h : DynamicMonitor.TimerInv s) (nc : PartialMonitoringConfig) :
    DynamicMonitor.TimerInv (DynamicMonitor.updateConfig s nc) := by
  unfold DynamicMonitor.updateConfig
  by_cases hr : s.isRunning
  · simp only [hr, if_true]
    apply timerInv_start
    have h1 := timerInv_stop h
    simpa [DynamicMonitor.TimerInv] using h1
  · simp only [hr, if_false]
    simpa [DynamicMonitor.TimerInv] using h

/-- Every operation preserves the timer invariant. -/
theorem timerInv_step {s : DynamicMonitor.State} (h : DynamicMonitor.TimerInv s) :
    ∀ op : DynamicMonitor.Op, DynamicMonitor.TimerInv (DynamicMonitor.step s op)
  | .opStart => timerInv_start h
  | .opStop => timerInv_stop h
  | .opUpdateConfig cfg => timerInv_updateConfig h cfg
  | .opClearHistory => by
    simpa [DynamicMonitor.step, DynamicMonitor.clearHistory, DynamicMonitor.TimerInv] using h
  | .opTick dp => by
    simpa [DynamicMonitor.step, DynamicMonitor.tick, DynamicMonitor.TimerInv] using h

/-- Folding operations preserves the timer invariant. -/
theorem timerInv_foldl (ops : List DynamicMonitor.Op) :
    ∀ s : DynamicMonitor.State, DynamicMonitor.TimerInv s →
      DynamicMonitor.TimerInv (ops.foldl DynamicMonitor.step s) := by
  induction ops with
  | nil => exact fun s h => h
  | cons op rest ih => exact fun s h => ih _ (timerInv_step h op)

/-- Every state reachable from a fresh monitor satisfies the timer
invariant. -/
theorem timerInv_run (cfg : PartialMonitoringConfig) (ops : List DynamicMonitor.Op) :
    DynamicMonitor.TimerInv (DynamicMonitor.run cfg ops) :=
  timerInv_foldl ops _ (timerInv_initState cfg)

/-- C8: `start` while RUNNING is a complete no-op (the state — including
`intervalId` and the live-timer set — is unchanged, so the timer is not
restarted and no second timer is created); `stop` while STOPPED is likewise
a no-op; and in every state reachable by any operation sequence from a
fresh monitor there is at most one active `setInterval` timer. -/
theorem scheduler_idempotent_single_timer :
    (∀ s : DynamicMonitor.State, s.isRunning = true → DynamicMonitor.start s = s) ∧
    (∀ s : DynamicMonitor.State, s.isRunning = false → DynamicMonitor.stop s = s) ∧
    (∀ (cfg : PartialMonitoringConfig) (ops : List DynamicMonitor.Op),
      (DynamicMonitor.run cfg ops).activeTimers.length ≤ 1) := by
  refine ⟨fun s h => by simp [DynamicMonitor.start, h],
    fun s h => by simp [DynamicMonitor.stop, h], fun cfg ops => ?_⟩
  have h := timerInv_run cfg ops
  unfold DynamicMonitor.TimerInv at h
  by_cases hr : (DynamicMonitor.run cfg ops).isRunning
  · simp only [hr, if_true] at h
    obtain ⟨id, _, hts⟩ := h
    simp [hts]
  · simp only [hr, if_false] at h
    simp [h.2]

/-- Witness for C8: a doubly-started fresh monitor — the second `start` is
the identity and the run `[start, start]` has exactly one live timer. -/
theorem scheduler_idempotent_single_timer_witness :
    ((DynamicMonitor.start (DynamicMonitor.initState {})).isRunning = true ∧
      DynamicMonitor.start (DynamicMonitor.start (DynamicMonitor.initState {})) =
        DynamicMonitor.start (DynamicMonitor.initState {})) ∧
    ((DynamicMonitor.initState {}).isRunning = false ∧
      DynamicMonitor.stop (DynamicMonitor.initState {}) = DynamicMonitor.initState {}) ∧
    (DynamicMonitor.run {} [.opStart, .opStart]).activeTimers.length ≤ 1 :=
  ⟨⟨by simp [DynamicMonitor.start, DynamicMonitor.initState],
      scheduler_idempotent_single_timer.1 _
        (by simp [DynamicMonitor.start, DynamicMonitor.initState])⟩,
    ⟨rfl, scheduler_idempotent_single_timer.2.1 _ rfl⟩,
    scheduler_idempotent_single_timer.2.2 {} [.opStart, .opStart]⟩

/-- `find` on a cons cell. -/
theorem AlertMap.find_cons (k0 : String) (a0 : Alert) (m : AlertMap) (k : String) :
    AlertMap.find ((k0, a0) :: m) k = if k0 = k then some a0 else AlertMap.find m k := by
  by_cases h : k0 = k
  · simp [AlertMap.find, List.find?_cons_of_pos, h]
  · simp [AlertMap.find, List.find?_cons_of_neg, h]

/-- `set` stores the given record under the given key. -/
theorem AlertMap.find_set_self (m : AlertMap) (k : String) (a : Alert) :
    AlertMap.find (AlertMap.set m k a) k = some a := by
  induction m with
  | nil => simp [AlertMap.set, AlertMap.find_cons]
  | cons p rest ih =>
    obtain ⟨k0, a0⟩ := p
    by_cases h : k0 = k
    · simp [AlertMap.set, h, AlertMap.find_cons]
    · simp [AlertMap.set, h, AlertMap.find_cons, ih]

/-- `set` leaves every other key untouched. -/
theorem AlertMap.find_set_ne (m : AlertMap) (k : String) (a : Alert) (k' : String)
    (h : k' ≠ k) : AlertMap.find (AlertMap.set m k a) k' = AlertMap.find m k' := by
  have hke : k ≠ k' := Ne.symm h
  induction m with
  | nil => simp [AlertMap.set, AlertMap.find_cons, hke]
  | cons p rest ih =>
    obtain ⟨k0, a0⟩ := p
    by_cases h0 : k0 = k
    · subst h0
      simp [AlertMap.set, AlertMap.find_cons, hke]
    · simp [AlertMap.set, h0, AlertMap.find_cons, ih]

/-- The empty map is well-keyed. -/
theorem AlertMap.wfKeys_nil : AlertMap.WFKeys [] := by
  intro p hp
  cases hp

/-- `set` with a record carrying its own key preserves well-keyedness. -/
theorem AlertMap.wfKeys_set {m : AlertMap} (hm : AlertMap.WFKeys m) {k : String}
    {a : Alert} (ha : a.id = k) : AlertMap.WFKeys (AlertMap.set m k a) := by
  induction m with
  | nil =>
    intro p hp
    simp [AlertMap.set] at hp
    subst hp
    exact ha
  | cons q rest ih =>
    obtain ⟨k0, a0⟩ := q
    have hm0 : AlertMap.WFKeys rest := fun p hp => hm p (List.mem_cons_of_mem _ hp)
    by_cases h0 : k0 = k
    · intro p hp
      simp only [AlertMap.set, h0, if_true] at hp
      rcases List.mem_cons.mp hp with h | h
      · subst h; simpa [h0] using ha
      · exact hm p (List.mem_cons_of_mem _ h)
    · intro p hp
      simp only [AlertMap.set, h0, if_false] at hp
      rcases List.mem_cons.mp hp with h | h
      · subst h; exact hm (k0, a0) (List.mem_cons_self _ _)
      · exact ih hm0 p h

/-- In a well-keyed map, a found record carries the key it was found at. -/
theorem AlertMap.wfKeys_find {m : AlertMap} (hm : AlertMap.WFKeys m) {k : String}
    {a : Alert} (h : AlertMap.find m k = some a) : a.id = k := by
  unfold AlertMap.find at h
  obtain ⟨p, hp, hpa⟩ := Option.map_eq_some'.mp h
  have h1 : p.1 = k := by simpa using List.find?_some hp
  have h2 : p ∈ m := List.mem_of_find?_eq_some hp
  rw [← hpa, hm p h2, h1]

/-- `countRaised` over a cons. -/
theorem countRaised_cons (k : String) (e : AlertEvent) (evs : List AlertEvent) :
    countRaised k (e :: evs) =
      countRaised k evs + (if AlertEvent.isRaisedFor k e then 1 else 0) := by
  simp only [countRaised, List.filter_cons]
  split <;> simp [Nat.add_comm]

/-- `countResolved` over a cons. -/
theorem countResolved_cons (k : String) (e : AlertEvent) (evs : List AlertEvent) :
    countResolved k (e :: evs) =
      countResolved k evs + (if AlertEvent.isResolvedFor k e then 1 else 0) := by
  simp only [countResolved, List.filter_cons]
  split <;> simp [Nat.add_comm]

/-- Rules whose ids differ from `k` neither touch the map entry at `k` nor
emit any event for `k`, and they keep the map well-keyed. -/
theorem checkAlertsGo_frame (now : ℕ) (dp : MonitoringDataPoint) (k : String) :
    ∀ (rs : List AlertRule) (m : AlertMap), (∀ ru ∈ rs, ru.id ≠ k) → AlertMap.WFKeys m →
      AlertMap.find (AlertManager.checkAlertsGo now dp rs m).alerts k = AlertMap.find m k ∧
      countRaised k (AlertManager.checkAlertsGo now dp rs m).events = 0 ∧
      countResolved k (AlertManager.checkAlertsGo now dp rs m).events = 0 ∧
      AlertMap.WFKeys (AlertManager.checkAlertsGo now dp rs m).alerts := by
  intro rs
  induction rs with
  | nil =>
    intro m _ hwf
    exact ⟨rfl, rfl, rfl, hwf⟩
  | cons ru rest ih =>
    intro m hk hwf
    have hne : ru.id ≠ k := hk ru (List.mem_cons_self _ _)
    have hkrest : ∀ x ∈ rest, x.id ≠ k := fun x hx => hk x (List.mem_cons_of_mem _ hx)
    cases hc : ru.condition dp with
    | error e =>
      have hgo : AlertManager.checkAlertsGo now dp (ru :: rest) m = ⟨m, [], some e⟩ := by
        simp only [AlertManager.checkAlertsGo, hc]
      rw [hgo]
      exact ⟨rfl, rfl, rfl, hwf⟩
    | ok b =>
      cases b with
      | true =>
        cases hf : AlertMap.find m ru.id with
        | none =>
          simp only [AlertManager.checkAlertsGo, hc, hf, if_true]
          obtain ⟨h1, h2, h3, h4⟩ := ih (AlertMap.set m ru.id
            { id := ru.id, level := ru.level, message := ru.message dp, timestamp := now,
              resolved := false, resolvedAt := none, data := some dp })
            hkrest (AlertMap.wfKeys_set hwf rfl)
          refine ⟨h1.trans (AlertMap.find_set_ne m ru.id _ k (Ne.symm hne)), ?_, ?_, h4⟩
          · rw [countRaised_cons, h2]
            simp [AlertEvent.isRaisedFor, hne]
          · rw [countResolved_cons, h3]
            simp [AlertEvent.isResolvedFor]
        | some a =>
          cases hres : a.resolved with
          | true =>
            simp only [AlertManager.checkAlertsGo, hc, hf, hres, if_true]
            obtain ⟨h1, h2, h3, h4⟩ := ih (AlertMap.set m ru.id
              { id := ru.id, level := ru.level, message := ru.message dp, timestamp := now,
                resolved := false, resolvedAt := none, data := some dp })
              hkrest (AlertMap.wfKeys_set hwf rfl)
            refine ⟨h1.trans (AlertMap.find_set_ne m ru.id _ k (Ne.symm hne)), ?_, ?_, h4⟩
            · rw [countRaised_cons, h2]
              simp [AlertEvent.isRaisedFor, hne]
            · rw [countResolved_cons, h3]
              simp [AlertEvent.isResolvedFor]
          | false =>
            simp only [AlertManager.checkAlertsGo, hc, hf, hres, Bool.false_eq_true, if_false]
            exact ih m hkrest hwf
      | false =>
        cases hf : AlertMap.find m ru.id with
        | none =>
          simp only [AlertManager.checkAlertsGo, hc, hf]
          exact ih m hkrest hwf
        | some a =>
          have haid : a.id = ru.id := AlertMap.wfKeys_find hwf hf
          cases hres : a.resolved with
          | true =>
            simp only [AlertManager.checkAlertsGo, hc, hf, hres, if_true]
            exact ih m hkrest hwf
          | false =>
            simp only [AlertManager.checkAlertsGo, hc, hf, hres, Bool.false_eq_true, if_false]
            obtain ⟨h1, h2, h3, h4⟩ := ih (AlertMap.set m ru.id
              { a with resolved := true, resolvedAt := some now })
              hkrest (AlertMap.wfKeys_set hwf haid)
            refine ⟨h1.trans (AlertMap.find_set_ne m ru.id _ k (Ne.symm hne)), ?_, ?_, h4⟩
            · rw [countRaised_cons, h2]
              simp [AlertEvent.isRaisedFor]
            · rw [countResolved_cons, h3]
              simp [AlertEvent.isResolvedFor, haid, hne]

/-- `firingIn` only depends on the entry at its key. -/
theorem firingIn_congr {m1 m2 : AlertMap} {k : String}
    (h : AlertMap.find m1 k = AlertMap.find m2 k) : firingIn m1 k = firingIn m2 k := by
  unfold firingIn
  rw [h]

/-- One `checkAlerts` pass, seen from one registered rule `r` whose
condition evaluates to `b` (rules before `r` must not throw, all other
rules have ids different from `r.id`): a raise for `r.id` is emitted iff
`b` is true and `r` was not already firing; a resolve iff `b` is false and
`r` was firing; afterwards `r` is firing iff `b`. -/
theorem checkAlertsGo_rule (now : ℕ) (dp : MonitoringDataPoint) (r : AlertRule) (b : Bool)
    (hcond : r.condition dp = .ok b) :
    ∀ (rs1 rs2 : List AlertRule) (m : AlertMap),
      (∀ ru ∈ rs1, ru.id ≠ r.id) →
      (∀ ru ∈ rs1, ∃ bb, ru.condition dp = Except.ok bb) →
      (∀ ru ∈ rs2, ru.id ≠ r.id) →
      AlertMap.WFKeys m →
      countRaised r.id (AlertManager.checkAlertsGo now dp (rs1 ++ r :: rs2) m).events =
        (if b = true ∧ firingIn m r.id = false then 1 else 0) ∧
      countResolved r.id (AlertManager.checkAlertsGo now dp (rs1 ++ r :: rs2) m).events =
        (if b = false ∧ firingIn m r.id = true then 1 else 0) ∧
      firingIn (AlertManager.checkAlertsGo now dp (rs1 ++ r :: rs2) m).alerts r.id = b ∧
      AlertMap.WFKeys (AlertManager.checkAlertsGo now dp (rs1 ++ r :: rs2) m).alerts := by
  intro rs1
  induction rs1 with
  | nil =>
    intro rs2 m _ _ hk2 hwf
    rw [List.nil_append]
    cases b with
    | true =>
      cases hf : AlertMap.find m r.id with
      | none =>
        have hfir : firingIn m r.id = false := by simp [firingIn, hf]
        simp only [AlertManager.checkAlertsGo, hcond, hf, if_true]
        obtain ⟨f1, f2, f3, f4⟩ := checkAlertsGo_frame now dp r.id rs2
          (AlertMap.set m r.id
            { id := r.id, level := r.level, message := r.message dp, timestamp := now,
              resolved := false, resolvedAt := none, data := some dp })
          hk2 (AlertMap.wfKeys_set hwf rfl)
        refine ⟨?_, ?_, ?_, f4⟩
        · rw [countRaised_cons, f2, hfir]
          simp [AlertEvent.isRaisedFor]
        · rw [countResolved_cons, f3, hfir]
          simp [AlertEvent.isResolvedFor]
        · simp [firingIn, f1, AlertMap.find_set_self]
      | some a =>
        cases hres : a.resolved with
        | true =>
          have hfir : firingIn m r.id = false := by simp [firingIn, hf, hres]
          simp only [AlertManager.checkAlertsGo, hcond, hf, hres, if_true]
          obtain ⟨f1, f2, f3, f4⟩ := checkAlertsGo_frame now dp r.id rs2
            (AlertMap.set m r.id
              { id := r.id, level := r.level, message := r.message dp, timestamp := now,
                resolved := false, resolvedAt := none, data := some dp })
            hk2 (AlertMap.wfKeys_set hwf rfl)
          refine ⟨?_, ?_, ?_, f4⟩
          · rw [countRaised_cons, f2, hfir]
            simp [AlertEvent.isRaisedFor]
          · rw [countResolved_cons, f3, hfir]
            simp [AlertEvent.isResolvedFor]
          · simp [firingIn, f1, AlertMap.find_set_self]
        | false =>
          have hfir : firingIn m r.id = true := by simp [firingIn, hf, hres]
          simp only [AlertManager.checkAlertsGo, hcond, hf, hres, Bool.false_eq_true, if_false]
          obtain ⟨f1, f2, f3, f4⟩ := checkAlertsGo_frame now dp r.id rs2 m hk2 hwf
          refine ⟨?_, ?_, ?_, f4⟩
          · rw [f2, hfir]; simp
          · rw [f3, hfir]; simp
          · rw [firingIn_congr f1, hfir]
    | false =>
      cases hf : AlertMap.find m r.id with
      | none =>
        have hfir : firingIn m r.id = false := by simp [firingIn, hf]
        simp only [AlertManager.checkAlertsGo, hcond, hf]
        obtain ⟨f1, f2, f3, f4⟩ := checkAlertsGo_frame now dp r.id rs2 m hk2 hwf
        refine ⟨?_, ?_, ?_, f4⟩
        · rw [f2, hfir]; simp
        · rw [f3, hfir]; simp
        · rw [firingIn_congr f1, hfir]
      | some a =>
        have haid : a.id = r.id := AlertMap.wfKeys_find hwf hf
        cases hres : a.resolved with
        | true =>
          have hfir : firingIn m r.id = false := by simp [firingIn, hf, hres]
          simp only [AlertManager.checkAlertsGo, hcond, hf, hres, if_true]
          obtain ⟨f1, f2, f3, f4⟩ := checkAlertsGo_frame now dp r.id rs2 m hk2 hwf
          refine ⟨?_, ?_, ?_, f4⟩
          · rw [f2, hfir]; simp
          · rw [f3, hfir]; simp
          · rw [firingIn_congr f1, hfir]
        | false =>
          have hfir : firingIn m r.id = true := by simp [firingIn, hf, hres]
          simp only [AlertManager.checkAlertsGo, hcond, hf, hres, Bool.false_eq_true, if_false]
          obtain ⟨f1, f2, f3, f4⟩ := checkAlertsGo_frame now dp r.id rs2
            (AlertMap.set m r.id { a with resolved := true, resolvedAt := some now })
            hk2 (AlertMap.wfKeys_set hwf haid)
          refine ⟨?_, ?_, ?_, f4⟩
          · rw [countRaised_cons, f2, hfir]
            simp [AlertEvent.isRaisedFor]
          · rw [countResolved_cons, f3, hfir]
            simp [AlertEvent.isResolvedFor, haid]
          · simp [firingIn, f1, AlertMap.find_set_self]
  | cons ru rest ih =>
    intro rs2 m hk1 hp1 hk2 hwf
    have hne : ru.id ≠ r.id := hk1 ru (List.mem_cons_self _ _)
    have hk1' : ∀ x ∈ rest, x.id ≠ r.id := fun x hx => hk1 x (List.mem_cons_of_mem _ hx)
    have hp1' : ∀ x ∈ rest, ∃ bb, x.condition dp = Except.ok bb :=
      fun x hx => hp1 x (List.mem_cons_of_mem _ hx)
    obtain ⟨bb, hbb⟩ := hp1 ru (List.mem_cons_self _ _)
    rw [List.cons_append]
    cases bb with
    | true =>
      cases hf : AlertMap.find m ru.id with
      | none =>
        simp only [AlertManager.checkAlertsGo, hbb, hf, if_true]
        obtain ⟨i1, i2, i3, i4⟩ := ih rs2 (AlertMap.set m ru.id
          { id := ru.id, level := ru.level, message := ru.message dp, timestamp := now,
            resolved := false, resolvedAt := none, data := some dp })
          hk1' hp1' hk2 (AlertMap.wfKeys_set hwf rfl)
        have hfr : firingIn (AlertMap.set m ru.id
            { id := ru.id, level := ru.level, message := ru.message dp, timestamp := now,
              resolved := false, resolvedAt := none, data := some dp }) r.id =
            firingIn m r.id :=
          firingIn_congr (AlertMap.find_set_ne m ru.id _ r.id (Ne.symm hne))
        rw [hfr] at i1 i2
        refine ⟨?_, ?_, i3, i4⟩
        · rw [countRaised_cons, i1]
          simp [AlertEvent.isRaisedFor, hne]
        · rw [countResolved_cons, i2]
          simp [AlertEvent.isResolvedFor]
      | some a =>
        cases hres : a.resolved with
        | true =>
          simp only [AlertManager.checkAlertsGo, hbb, hf, hres, if_true]
          obtain ⟨i1, i2, i3, i4⟩ := ih rs2 (AlertMap.set m ru.id
            { id := ru.id, level := ru.level, message := ru.message dp, timestamp := now,
              resolved := false, resolvedAt := none, data := some dp })
            hk1' hp1' hk2 (AlertMap.wfKeys_set hwf rfl)
          have hfr : firingIn (AlertMap.set m ru.id
              { id := ru.id, level := ru.level, message := ru.message dp, timestamp := now,
                resolved := false, resolvedAt := none, data := some dp }) r.id =
              firingIn m r.id :=
            firingIn_congr (AlertMap.find_set_ne m ru.id _ r.id (Ne.symm hne))
          rw [hfr] at i1 i2
          refine ⟨?_, ?_, i3, i4⟩
          · rw [countRaised_cons, i1]
            simp [AlertEvent.isRaisedFor, hne]
          · rw [countResolved_cons, i2]
            simp [AlertEvent.isResolvedFor]
        | false =>
          simp only [AlertManager.checkAlertsGo, hbb, hf, hres, Bool.false_eq_true, if_false]
          exact ih rs2 m hk1' hp1' hk2 hwf
    | false =>
      cases hf : AlertMap.find m ru.id with
      | none =>
        simp only [AlertManager.checkAlertsGo, hbb, hf]
        exact ih rs2 m hk1' hp1' hk2 hwf
      | some a =>
        have haid : a.id = ru.id := AlertMap.wfKeys_find hwf hf
        cases hres : a.resolved with
        | true =>
          simp only [AlertManager.checkAlertsGo, hbb, hf, hres, if_true]
          exact ih rs2 m hk1' hp1' hk2 hwf
        | false =>
          simp only [AlertManager.checkAlertsGo, hbb, hf, hres, Bool.false_eq_true, if_false]
          obtain ⟨i1, i2, i3, i4⟩ := ih rs2
            (AlertMap.set m ru.id { a with resolved := true, resolvedAt := some now })
            hk1' hp1' hk2 (AlertMap.wfKeys_set hwf haid)
          have hfr : firingIn (AlertMap.set m ru.id
              { a with resolved := true, resolvedAt := some now }) r.id = firingIn m r.id :=
            firingIn_congr (AlertMap.find_set_ne m ru.id _ r.id (Ne.symm hne))
          rw [hfr] at i1 i2
          refine ⟨?_, ?_, i3, i4⟩
          · rw [countRaised_cons, i1]
            simp [AlertEvent.isRaisedFor]
          · rw [countResolved_cons, i2]
            simp [AlertEvent.isResolvedFor, haid, hne]

/-- Run invariant: after `i` ticks the alert map is well-keyed and rule `r`
is firing exactly when its predicate held on the previous tick. -/
theorem alertsAfter_inv (rs1 rs2 : List AlertRule) (r : AlertRule)
    (condB : AlertRule → MonitoringDataPoint → Bool) (ps : List MonitoringDataPoint)
    (hk1 : ∀ ru ∈ rs1, ru.id ≠ r.id) (hk2 : ∀ ru ∈ rs2, ru.id ≠ r.id)
    (hpure : ∀ ru ∈ rs1 ++ r :: rs2, ∀ p, ru.condition p = Except.ok (condB ru p)) :
    ∀ i : ℕ,
      AlertMap.WFKeys (AlertManager.alertsAfter (rs1 ++ r :: rs2) ps i) ∧
      firingIn (AlertManager.alertsAfter (rs1 ++ r :: rs2) ps i) r.id =
        (if i = 0 then false else condB r (ps.getD (i - 1) default)) := by
  intro i
  induction i with
  | zero =>
    refine ⟨AlertMap.wfKeys_nil, ?_⟩
    simp [AlertManager.alertsAfter, firingIn, AlertMap.find]
  | succ i ih =>
    obtain ⟨hwf, _⟩ := ih
    have hr : r ∈ rs1 ++ r :: rs2 := List.mem_append_right _ (List.mem_cons_self _ _)
    have hcond : r.condition (ps.getD i default) =
        Except.ok (condB r (ps.getD i default)) := hpure r hr _
    have hp1 : ∀ ru ∈ rs1, ∃ bb, ru.condition (ps.getD i default) = Except.ok bb :=
      fun ru hru => ⟨condB ru _, hpure ru (List.mem_append_left _ hru) _⟩
    obtain ⟨_, _, c3, c4⟩ := checkAlertsGo_rule i (ps.getD i default) r
      (condB r (ps.getD i default)) hcond rs1 rs2
      (AlertManager.alertsAfter (rs1 ++ r :: rs2) ps i) hk1 hp1 hk2 hwf
    refine ⟨c4, ?_⟩
    rw [show AlertManager.alertsAfter (rs1 ++ r :: rs2) ps (i + 1) =
      (AlertManager.checkAlertsGo i (ps.getD i default) (rs1 ++ r :: rs2)
        (AlertManager.alertsAfter (rs1 ++ r :: rs2) ps i)).alerts from rfl]
    rw [c3]
    simp

/-- C1: edge-triggered alerting. For any registered rule `r` (rule ids
distinct, rule predicates total) and any fed sequence of data points,
tick `i` of the `checkAlerts` run emits an `'alert'` for `r` exactly when
the predicate is true at `i` and was false at `i−1` (or `i = 0`) — the
first tick of a continuous streak — and emits an `'alertResolved'` exactly
when the predicate is false at `i` after being true at `i−1` — the first
tick after the streak. In particular ticks inside a streak after its first
emit nothing for `r`, so each continuous streak yields exactly one raise,
and exactly one resolve if the predicate falls before the sequence ends. -/
theorem alertManager_edge_triggered (rules : List AlertRule)
    (condB : AlertRule → MonitoringDataPoint → Bool) (r : AlertRule)
    (ps : List MonitoringDataPoint)
    (hnd : (rules.map AlertRule.id).Nodup) (hr : r ∈ rules)
    (hpure : ∀ ru ∈ rules, ∀ p, ru.condition p = Except.ok (condB ru p))
    (i : ℕ) (_hi : i < ps.length) :
    countRaised r.id (AlertManager.tickEvents rules ps i) =
      (if condB r (ps.getD i default) = true ∧
          (i = 0 ∨ condB r (ps.getD (i - 1) default) = false) then 1 else 0) ∧
    countResolved r.id (AlertManager.tickEvents rules ps i) =
      (if condB r (ps.getD i default) = false ∧
          i ≠ 0 ∧ condB r (ps.getD (i - 1) default) = true then 1 else 0) := by
  obtain ⟨rs1, rs2, hsplit⟩ := List.append_of_mem hr
  subst hsplit
  have hmap : (rs1.map AlertRule.id).Nodup ∧ (AlertRule.id r :: rs2.map AlertRule.id).Nodup ∧
      (rs1.map AlertRule.id).Disjoint (AlertRule.id r :: rs2.map AlertRule.id) := by
    rw [← List.nodup_append]
    simpa using hnd
  have hk1 : ∀ ru ∈ rs1, ru.id ≠ r.id := fun ru hru heq =>
    hmap.2.2 (List.mem_map_of_mem _ hru) (heq ▸ List.mem_cons_self _ _)
  have hk2 : ∀ ru ∈ rs2, ru.id ≠ r.id := fun ru hru heq =>
    (List.nodup_cons.mp hmap.2.1).1 (heq ▸ List.mem_map_of_mem _ hru)
  obtain ⟨hwf, hfir⟩ := alertsAfter_inv rs1 rs2 r condB ps hk1 hk2 hpure i
  have hcond : r.condition (ps.getD i default) =
      Except.ok (condB r (ps.getD i default)) :=
    hpure r (List.mem_append_right _ (List.mem_cons_self _ _)) _
  have hp1 : ∀ ru ∈ rs1, ∃ bb, ru.condition (ps.getD i default) = Except.ok bb :=
    fun ru hru => ⟨condB ru _, hpure ru (List.mem_append_left _ hru) _⟩
  obtain ⟨c1, c2, _, _⟩ := checkAlertsGo_rule i (ps.getD i default) r
    (condB r (ps.getD i default)) hcond rs1 rs2
    (AlertManager.alertsAfter (rs1 ++ r :: rs2) ps i) hk1 hp1 hk2 hwf
  rw [hfir] at c1 c2
  have hev : AlertManager.tickEvents (rs1 ++ r :: rs2) ps i =
      (AlertManager.checkAlertsGo i (ps.getD i default) (rs1 ++ r :: rs2)
        (AlertManager.alertsAfter (rs1 ++ r :: rs2) ps i)).events := rfl
  rw [hev, c1, c2]
  constructor
  · by_cases hi0 : i = 0
    · simp [hi0]
    · cases hb : condB r (ps.getD i default) <;>
        cases hbp : condB r (ps.getD (i - 1) default) <;> simp [hi0, hb, hbp]
  · by_cases hi0 : i = 0
    · simp [hi0]
    · cases hb : condB r (ps.getD i default) <;>
        cases hbp : condB r (ps.getD (i - 1) default) <;> simp [hi0, hb, hbp]

/-- Witness for C1: the spec's scenario — threshold 80, CPU series
`[70, 75, 85, 90, 78, 60]` — raises exactly once at index 2, emits nothing
at index 3 (still inside the streak), and resolves exactly once at
index 4. -/
theorem alertManager_edge_triggered_witness :
    countRaised highCpuRule.id (AlertManager.tickEvents [highCpuRule] scenarioPoints 2) = 1 ∧
    countRaised highCpuRule.id (AlertManager.tickEvents [highCpuRule] scenarioPoints 3) = 0 ∧
    countResolved highCpuRule.id (AlertManager.tickEvents [highCpuRule] scenarioPoints 4) = 1 := by
  have hnd : (([highCpuRule].map AlertRule.id)).Nodup := by simp
  have hr : highCpuRule ∈ [highCpuRule] := List.mem_singleton.mpr rfl
  have hpure : ∀ ru ∈ [highCpuRule], ∀ p,
      ru.condition p = Except.ok ((fun _ dp => decide ((80 : ℚ) < dp.cpuUsage)) ru p) := by
    intro ru hru p
    rw [List.mem_singleton] at hru
    subst hru
    rfl
  have hlen : scenarioPoints.length = 6 := by simp [scenarioPoints]
  refine ⟨?_, ?_, ?_⟩
  · have h := (alertManager_edge_triggered [highCpuRule]
      (fun _ dp => decide ((80 : ℚ) < dp.cpuUsage)) highCpuRule scenarioPoints
      hnd hr hpure 2 (by rw [hlen]; norm_num)).1
    rw [h]
    norm_num [scenarioPoints, cpuPoint]
  · have h := (alertManager_edge_triggered [highCpuRule]
      (fun _ dp => decide ((80 : ℚ) < dp.cpuUsage)) highCpuRule scenarioPoints
      hnd hr hpure 3 (by rw [hlen]; norm_num)).1
    rw [h]
    norm_num [scenarioPoints, cpuPoint]
  · have h := (alertManager_edge_triggered [highCpuRule]
      (fun _ dp => decide ((80 : ℚ) < dp.cpuUsage)) highCpuRule scenarioPoints
      hnd hr hpure 4 (by rw [hlen]; norm_num)).2
    rw [h]
    norm_num [scenarioPoints, cpuPoint]

/-- `reduce((s, a) => s + g(a), c)` is `c` plus the sum of the mapped list. -/
theorem foldl_add_map_eq {α : Type} (g : α → ℚ) (c : ℚ) (l : List α) :
    l.foldl (fun s a => s + g a) c = c + (l.map g).sum := by
  induction l generalizing c with
  | nil => simp
  | cons a t ih => simp only [List.foldl_cons, List.map_cons, List.sum_cons, ih]; ring

/-- Summing a function mapped over `List.range` is a `Finset.range` sum. -/
theorem sum_map_range (f : ℕ → ℚ) (n : ℕ) :
    ((List.range n).map f).sum = ∑ i in Finset.range n, f i := by
  induction n with
  | zero => simp
  | succ n ih =>
    rw [List.range_succ, List.map_append, List.sum_append, Finset.sum_range_succ, ih]
    simp

/-- Summing over the positional pairing of `List.range l.length` with `l`
is an indexed `Finset.range` sum of `l.getD`. -/
theorem sum_zip_range (l : List ℚ) (f : ℕ → ℚ → ℚ) :
    (((List.range l.length).zip l).map (fun p => f p.1 p.2)).sum =
      ∑ i in Finset.range l.length, f i (l.getD i 0) := by
  induction l generalizing f with
  | nil => simp
  | cons v t ih =>
    rw [List.length_cons, List.range_succ_eq_map]
    simp only [List.zip_cons_cons, List.map_cons, List.sum_cons]
    rw [List.zip_map_left, List.map_map]
    rw [show ((fun p : ℕ × ℚ => f p.1 p.2) ∘ Prod.map Nat.succ id) =
      (fun p : ℕ × ℚ => f (p.1 + 1) p.2) from rfl]
    rw [ih (fun i y => f (i + 1) y), Finset.sum_range_succ']
    simp [add_comm]

/-- A list sum as an indexed `Finset.range` sum. -/
theorem sum_eq_sum_getD (l : List ℚ) :
    l.sum = ∑ i in Finset.range l.length, l.getD i 0 := by
  rw [← sum_zip_range l (fun _ y => y)]
  congr 1
  rw [show (fun p : ℕ × ℚ => p.2) = Prod.snd from rfl]
  exact (List.map_snd_zip _ _ (le_of_eq (List.length_range _).symm)).symm

/-- Gauss sum over `ℚ`. -/
theorem sum_range_cast_q (n : ℕ) :
    (∑ i in Finset.range n, (i : ℚ)) = n * (n - 1) / 2 := by
  induction n with
  | zero => simp
  | succ n ih =>
    rw [Finset.sum_range_succ, ih]
    push_cast
    ring

/-- Sum of squares over `ℚ`. -/
theorem sum_range_sq_q (n : ℕ) :
    (∑ i in Finset.range n, (i : ℚ) * i) = n * (n - 1) * (2 * n - 1) / 6 := by
  induction n with
  | zero => simp
  | succ n ih =>
    rw [Finset.sum_range_succ, ih]
    push_cast
    ring

/-- `sumX` as a `Finset.range` sum. -/
theorem regSumX_eq (values : List ℚ) :
    TrendAnalyzer.regSumX values = ∑ i in Finset.range values.length, (i : ℚ) := by
  rw [TrendAnalyzer.regSumX, TrendAnalyzer.regX, foldl_add_eq_add_sum, zero_add, sum_map_range]

/-- `sumY` as a `Finset.range` sum. -/
theorem regSumY_eq (values : List ℚ) :
    TrendAnalyzer.regSumY values = ∑ i in Finset.range values.length, values.getD i 0 := by
  rw [TrendAnalyzer.regSumY, foldl_add_eq_add_sum, zero_add, sum_eq_sum_getD]

/-- `sumXX` as a `Finset.range` sum. -/
theorem regSumXX_eq (values : List ℚ) :
    TrendAnalyzer.regSumXX values = ∑ i in Finset.range values.length, (i : ℚ) * i := by
  rw [TrendAnalyzer.regSumXX, TrendAnalyzer.regX]
  rw [show (fun s xi : ℚ => s + xi * xi) = fun s xi => s + (fun z : ℚ => z * z) xi from rfl]
  rw [foldl_add_map_eq, zero_add, List.map_map]
  rw [show ((fun z : ℚ => z * z) ∘ fun i : ℕ => (i : ℚ)) =
    fun i : ℕ => (i : ℚ) * i from rfl]
  rw [sum_map_range]

/-- `sumXY` as a `Finset.range` sum. -/
theorem regSumXY_eq (values : List ℚ) :
    TrendAnalyzer.regSumXY values =
      ∑ i in Finset.range values.length, (i : ℚ) * values.getD i 0 := by
  rw [TrendAnalyzer.regSumXY, TrendAnalyzer.regX]
  rw [show (fun (s : ℚ) (p : ℚ × ℚ) => s + p.1 * p.2) =
    fun s p => s + (fun q : ℚ × ℚ => q.1 * q.2) p from rfl]
  rw [foldl_add_map_eq, zero_add, List.zip_map_left, List.map_map]
  rw [show ((fun q : ℚ × ℚ => q.1 * q.2) ∘ Prod.map (fun i : ℕ => (i : ℚ)) id) =
    fun p : ℕ × ℚ => (fun i y => (i : ℚ) * y) p.1 p.2 from rfl]
  exact sum_zip_range values (fun i y => (i : ℚ) * y)

/-- For `n ≥ 3` the regression denominator `n·Σx² − (Σx)²` is nonzero. -/
theorem regDenom_ne_zero (values : List ℚ) (h3 : 3 ≤ values.length) :
    (values.length : ℚ) * TrendAnalyzer.regSumXX values -
      TrendAnalyzer.regSumX values * TrendAnalyzer.regSumX values ≠ 0 := by
  rw [regSumXX_eq, regSumX_eq, sum_range_sq_q, sum_range_cast_q]
  have h3q : (3 : ℚ) ≤ (values.length : ℚ) := by exact_mod_cast h3
  have e : (values.length : ℚ) *
        ((values.length : ℚ) * ((values.length : ℚ) - 1) * (2 * (values.length : ℚ) - 1) / 6) -
      (values.length : ℚ) * ((values.length : ℚ) - 1) / 2 *
        ((values.length : ℚ) * ((values.length : ℚ) - 1) / 2) =
      (values.length : ℚ) ^ 2 * ((values.length : ℚ) - 1) * ((values.length : ℚ) + 1) / 12 := by
    ring
  rw [e]
  have h0 : (0 : ℚ) < (values.length : ℚ) := by linarith
  have h1 : (0 : ℚ) < (values.length : ℚ) - 1 := by linarith
  have h2 : (0 : ℚ) < (values.length : ℚ) + 1 := by linarith
  exact ne_of_gt (div_pos (mul_pos (mul_pos (pow_pos h0 2) h1) h2) (by norm_num))

/-- C7: `predictTrend` with fewer than 3 points returns the empty sequence;
with `n ≥ 3` points it returns exactly `periods` values, the `j`-th
(0-based) being the least-squares line — the slope/intercept pair
satisfying both normal equations of ordinary least squares over positions
`0..n−1` — evaluated `j+1` steps beyond index `n−1` and clamped to
`[0, 100]`. -/
theorem predictTrend_ols (values : List ℚ) (periods : ℕ) :
    (values.length < 3 → TrendAnalyzer.predictTrend values periods = []) ∧
    (3 ≤ values.length →
      ∃ a b : ℚ,
        (∑ i in Finset.range values.length, (values.getD i 0 - (a * i + b))) = 0 ∧
        (∑ i in Finset.range values.length, ((i : ℚ) * (values.getD i 0 - (a * i + b)))) = 0 ∧
        (TrendAnalyzer.predictTrend values periods).length = periods ∧
        ∀ j < periods, (TrendAnalyzer.predictTrend values periods).getD j 0 =
          max 0 (min 100 (a * (((values.length : ℚ) - 1) + (j + 1)) + b))) := by
  constructor
  · intro h
    simp [TrendAnalyzer.predictTrend, h]
  · intro h3
    have hnot : ¬ values.length < 3 := Nat.not_lt.mpr h3
    have hnq : ((values.length : ℚ)) ≠ 0 := by
      have : (0 : ℕ) < values.length := by omega
      exact_mod_cast this.ne'
    have hD := regDenom_ne_zero values h3
    refine ⟨TrendAnalyzer.regSlope values, TrendAnalyzer.regIntercept values, ?_, ?_, ?_, ?_⟩
    · rw [Finset.sum_sub_distrib, Finset.sum_add_distrib, Finset.sum_const,
        Finset.card_range, nsmul_eq_mul, ← Finset.mul_sum]
      rw [← regSumY_eq, ← regSumX_eq, TrendAnalyzer.regIntercept]
      field_simp
    · rw [show (∑ i in Finset.range values.length,
          ((i : ℚ) * (values.getD i 0 -
            (TrendAnalyzer.regSlope values * i + TrendAnalyzer.regIntercept values)))) =
        ∑ i in Finset.range values.length,
          ((i : ℚ) * values.getD i 0 -
            (TrendAnalyzer.regSlope values * ((i : ℚ) * i) +
              TrendAnalyzer.regIntercept values * i)) from
        Finset.sum_congr rfl (fun i _ => by ring)]
      rw [Finset.sum_sub_distrib, Finset.sum_add_distrib, ← Finset.mul_sum, ← Finset.mul_sum]
      rw [← regSumXY_eq, ← regSumXX_eq, ← regSumX_eq, TrendAnalyzer.regIntercept,
        TrendAnalyzer.regSlope]
      field_simp
      ring
    · simp [TrendAnalyzer.predictTrend, hnot]
    · intro j hj
      rw [TrendAnalyzer.predictTrend, if_neg hnot]
      rw [List.getD_eq_getElem?_getD, List.getElem?_map, List.getElem?_range hj]
      simp only [Option.map_some', Option.getD_some]
      have harg : TrendAnalyzer.regSlope values *
            ((values.length : ℚ) + ((j + 1 : ℕ) : ℚ) - 1) + TrendAnalyzer.regIntercept values =
          TrendAnalyzer.regSlope values * (((values.length : ℚ) - 1) + ((j : ℚ) + 1)) +
            TrendAnalyzer.regIntercept values := by
        push_cast
        ring
      rw [harg]

/-- Witness for C7: the cold-start branch at a single point, and the
regression branch at `[10, 20, 30]` with 2 forecast periods. -/
theorem predictTrend_ols_witness :
    (([5] : List ℚ).length < 3 ∧ TrendAnalyzer.predictTrend [5] 3 = []) ∧
    (3 ≤ ([10, 20, 30] : List ℚ).length ∧
      ∃ a b : ℚ,
        (∑ i in Finset.range ([10, 20, 30] : List ℚ).length,
          (([10, 20, 30] : List ℚ).getD i 0 - (a * i + b))) = 0 ∧
        (∑ i in Finset.range ([10, 20, 30] : List ℚ).length,
          ((i : ℚ) * (([10, 20, 30] : List ℚ).getD i 0 - (a * i + b)))) = 0 ∧
        (TrendAnalyzer.predictTrend [10, 20, 30] 2).length = 2 ∧
        ∀ j < 2, (TrendAnalyzer.predictTrend [10, 20, 30] 2).getD j 0 =
          max 0 (min 100 (a * (((([10, 20, 30] : List ℚ).length : ℚ) - 1) + (j + 1)) + b))) :=
  ⟨⟨by norm_num, (predictTrend_ols [5] 3).1 (by norm_num)⟩,
    ⟨by norm_num, (predictTrend_ols [10, 20, 30] 2).2 (by norm_num)⟩⟩
